import Mathlib

/-!
Verification of the Battlesnake decision engine in `src/main.py`.

The Python functions are shallowly embedded as executable Lean definitions.
Grid coordinates are integers (`Int`); scores, which Python computes with
floats whose values here are all small dyadic or decimal rationals, are
modelled as exact rationals (`Rat`).  Bounded breadth-first search loops
(`while queue:` over a `deque`) are modelled with an explicit fuel
parameter; the canonical fuel `bfs_fuel` is proved sufficient
(`bfs_loop_fuel_stable`), so the fuelled loop agrees with the Python loop,
which always terminates.
-/

/-- A grid cell, mirroring the Python dicts `{"x": ..., "y": ...}`. -/
structure Point where
  x : Int
  y : Int
deriving DecidableEq, Repr

/-- A snake as delivered in the move request: stable id, head cell,
ordered body (head first), health. -/
structure Snake where
  id : String
  head : Point
  body : List Point
  health : Int
deriving DecidableEq, Repr

/-- `get_new_head_position` from `src/main.py`: apply a move's unit delta;
unknown move strings leave the head unchanged, as in the Python fallthrough. -/
def get_new_head_position (head : Point) (move : String) : Point :=
  if move = "up" then { head with y := head.y + 1 }
  else if move = "down" then { head with y := head.y - 1 }
  else if move = "left" then { head with x := head.x - 1 }
  else if move = "right" then { head with x := head.x + 1 }
  else head

/-- `get_distance` from `src/main.py`: Manhattan distance. -/
def get_distance (p1 p2 : Point) : Int :=
  |p1.x - p2.x| + |p1.y - p2.y|

/-- `get_possible_moves` from `src/main.py`: the in-bounds one-step
neighbours of a head cell, in the order up, down, left, right. -/
def get_possible_moves (head : Point) (board_width board_height : Int) : List Point :=
  (["up", "down", "left", "right"].map (get_new_head_position head)).filter
    (fun p => decide (0 ≤ p.x ∧ p.x < board_width ∧ 0 ≤ p.y ∧ p.y < board_height))

/-- The indexed self-body scan inside `is_basic_safe` (`for i, segment in
enumerate(my_body)`): reports a hit when some segment equals the new head,
except that the last segment is forgiven when `eating` is false. -/
def scan_body (nh : Point) (total : Nat) (eating : Bool) : Nat → List Point → Bool
  | _, [] => false
  | i, seg :: rest =>
    if seg = nh ∧ ¬(i = total - 1 ∧ eating = false) then true
    else scan_body nh total eating (i + 1) rest

/-- `is_basic_safe` from `src/main.py`: bounds check, neck (reversal) check,
then the self-body scan with the tail-vacate exception. -/
def is_basic_safe (nh : Point) (board_width board_height : Int)
    (my_body : List Point) (food : List Point) : Bool :=
  if nh.x < 0 ∨ board_width ≤ nh.x then false
  else if nh.y < 0 ∨ board_height ≤ nh.y then false
  else if 2 ≤ my_body.length ∧ my_body.getD 1 ⟨0, 0⟩ = nh then false
  else
    let eating := food.any (fun f => f = nh)
    if scan_body nh my_body.length eating 0 my_body then false
    else true

lemma scan_body_eq_true_iff (nh : Point) (total : Nat) (eating : Bool) :
    ∀ (body : List Point) (i : Nat),
      scan_body nh total eating i body = true ↔
        ∃ j, ∃ hj : j < body.length,
          body.get ⟨j, hj⟩ = nh ∧ ¬(i + j = total - 1 ∧ eating = false) := by
  intro body
  induction body with
  | nil => intro i; simp [scan_body]
  | cons seg rest ih =>
    intro i
    rw [scan_body]
    by_cases hc : seg = nh ∧ ¬(i = total - 1 ∧ eating = false)
    · simp only [if_pos hc, true_iff]
      refine ⟨0, Nat.succ_pos _, by simpa using hc.1, ?_⟩
      intro hcon
      exact hc.2 ⟨by omega, hcon.2⟩
    · simp only [if_neg hc, ih (i + 1)]
      constructor
      · rintro ⟨j, hj, hbody, hcond⟩
        refine ⟨j + 1, Nat.succ_lt_succ hj, by simpa using hbody, ?_⟩
        intro hcon
        exact hcond ⟨by omega, hcon.2⟩
      · rintro ⟨j, hj, hbody, hcond⟩
        match j with
        | 0 =>
          exfalso
          refine hc ⟨by simpa using hbody, ?_⟩
          intro hcon
          exact hcond ⟨by omega, hcon.2⟩
        | j + 1 =>
          refine ⟨j, Nat.lt_of_succ_lt_succ hj, by simpa using hbody, ?_⟩
          intro hcon
          exact hcond ⟨by omega, hcon.2⟩

lemma eating_eq_true_iff (nh : Point) (food : List Point) :
    (food.any (fun f => f = nh)) = true ↔ nh ∈ food := by
  simp only [List.any_eq_true, decide_eq_true_eq]
  constructor
  · rintro ⟨f, hf, rfl⟩; exact hf
  · intro hf; exact ⟨nh, hf, rfl⟩

/-- Rejection characterisation of `is_basic_safe`: it returns `false`
exactly for out-of-bounds heads, heads on the neck, or heads on a body
segment that is still occupied next turn (tail vacates unless eating). -/
lemma is_basic_safe_eq_false_iff (nh : Point) (w h : Int)
    (my_body : List Point) (food : List Point) :
    is_basic_safe nh w h my_body food = false ↔
      (nh.x < 0 ∨ w ≤ nh.x ∨ nh.y < 0 ∨ h ≤ nh.y)
      ∨ my_body.get? 1 = some nh
      ∨ (∃ i, ∃ hi : i < my_body.length,
          my_body.get ⟨i, hi⟩ = nh ∧ (i ≠ my_body.length - 1 ∨ nh ∈ food)) := by
  unfold is_basic_safe
  by_cases hx : nh.x < 0 ∨ w ≤ nh.x
  · rw [if_pos hx]
    constructor
    · intro _; left; tauto
    · intro _; rfl
  · rw [if_neg hx]
    by_cases hy : nh.y < 0 ∨ h ≤ nh.y
    · rw [if_pos hy]
      constructor
      · intro _; left; tauto
      · intro _; rfl
    · rw [if_neg hy]
      by_cases hneck : 2 ≤ my_body.length ∧ my_body.getD 1 ⟨0, 0⟩ = nh
      · rw [if_pos hneck]
        have hneck2 : my_body.get? 1 = some nh := by
          obtain ⟨hlen, hval⟩ := hneck
          have h1 : 1 < my_body.length := by omega
          rw [List.getD_eq_get?] at hval
          rw [List.get?_eq_get h1] at hval ⊢
          simp only [Option.getD_some] at hval
          rw [hval]
        constructor
        · intro _; right; left; exact hneck2
        · intro _; rfl
      · rw [if_neg hneck]
        have hneck3 : ¬ my_body.get? 1 = some nh := by
          intro hcon
          apply hneck
          obtain ⟨h1, hget⟩ := List.get?_eq_some.mp hcon
          constructor
          · omega
          · rw [List.getD_eq_get?, hcon]; rfl
        by_cases hscan :
            scan_body nh my_body.length (food.any (fun f => f = nh)) 0 my_body = true
        · rw [if_pos hscan]
          rw [scan_body_eq_true_iff] at hscan
          obtain ⟨j, hj, hbody, hcond⟩ := hscan
          constructor
          · intro _
            right; right
            refine ⟨j, hj, hbody, ?_⟩
            by_cases he : (food.any (fun f => f = nh)) = true
            · rw [eating_eq_true_iff] at he
              right; exact he
            · left
              intro hje
              refine hcond ⟨by omega, ?_⟩
              simp only [Bool.not_eq_true] at he
              exact he
          · intro _; rfl
        · rw [if_neg hscan]
          constructor
          · intro hcon; exact absurd hcon (by simp)
          · rintro (habs | habs | ⟨i, hi, hbody, hcond⟩)
            · rcases habs with h1 | h1 | h1 | h1
              · exact absurd (Or.inl h1) hx
              · exact absurd (Or.inr h1) hx
              · exact absurd (Or.inl h1) hy
              · exact absurd (Or.inr h1) hy
            · exact absurd habs hneck3
            · exfalso
              apply hscan
              rw [scan_body_eq_true_iff]
              refine ⟨i, hi, hbody, ?_⟩
              rcases hcond with hne | hin
              · intro hcon
                exact hne (by omega)
              · intro hcon
                rw [← eating_eq_true_iff nh food] at hin
                rw [hin] at hcon
                exact Bool.true_eq_false.mp hcon.2

/-- c1: the safety filter `is_basic_safe` rejects a candidate move exactly
when the resulting head is out of the grid bounds, equals the neck (second
body segment, when present), or equals a self-body segment still occupied
next turn, where the tail (last segment) counts as unoccupied exactly when
the new head cell is not a food cell. -/
theorem safety_filter_rejects_iff (nh : Point) (w h : Int)
    (my_body : List Point) (food : List Point) :
    is_basic_safe nh w h my_body food = false ↔
      (nh.x < 0 ∨ w ≤ nh.x ∨ nh.y < 0 ∨ h ≤ nh.y)
      ∨ my_body.get? 1 = some nh
      ∨ (∃ i, ∃ hi : i < my_body.length,
          my_body.get ⟨i, hi⟩ = nh ∧ (i ≠ my_body.length - 1 ∨ nh ∈ food)) :=
  is_basic_safe_eq_false_iff nh w h my_body food

/-- `validate_move_against_opponents` from `src/main.py`: `false` when some
opponent of length at least self length can step onto the chosen head cell. -/
def validate_move_against_opponents (chosen_head : Point) (my_length : Nat)
    (opponents : List Snake) (board_width board_height : Int) : Bool :=
  opponents.all (fun opp =>
    if opp.body.length < my_length then true
    else (get_possible_moves opp.head board_width board_height).all
      (fun p => decide (¬ p = chosen_head)))

/-- Inner accumulator loop of `evaluate_head_to_head` in `src/main.py`: per
opponent, `-1000` aborts on a possible head-to-head with an equal-or-larger
snake, `+50` per engageable contact with a smaller one, plus the proximity
hunting bonus against smaller heads. -/
def ehh_go (nh : Point) (my_length : Nat) (bw bh : Int) :
    List Snake → Rat → Rat
  | [], s => s
  | opp :: rest, s =>
    let pm := get_possible_moves opp.head bw bh
    let mcount := (pm.filter (fun p => decide (p = nh))).length
    if my_length ≤ opp.body.length ∧ 0 < mcount then (-1000 : Rat)
    else
      let s1 :=
        if opp.body.length < my_length then
          let s2 := s + 50 * (mcount : Rat)
          let d := get_distance nh opp.head
          if d < 3 then s2 + ((3 - d : Int) : Rat) * 10 else s2
        else s
      ehh_go nh my_length bw bh rest s1

/-- `evaluate_head_to_head` from `src/main.py`. -/
def evaluate_head_to_head (nh : Point) (my_length : Nat)
    (opponents : List Snake) (bw bh : Int) : Rat :=
  ehh_go nh my_length bw bh opponents 0

/-- The fatal head-to-head condition: some opponent at least as long as self
can reach the candidate cell in one in-bounds step. -/
def fatal_threat (nh : Point) (my_length : Nat) (opponents : List Snake)
    (bw bh : Int) : Prop :=
  ∃ opp ∈ opponents, my_length ≤ opp.body.length ∧
    nh ∈ get_possible_moves opp.head bw bh

instance (nh : Point) (my_length : Nat) (opponents : List Snake) (bw bh : Int) :
    Decidable (fatal_threat nh my_length opponents bw bh) := by
  unfold fatal_threat; infer_instance

lemma get_distance_nonneg (p q : Point) : 0 ≤ get_distance p q :=
  add_nonneg (abs_nonneg _) (abs_nonneg _)

lemma matches_pos_iff (nh : Point) (pm : List Point) :
    0 < (pm.filter (fun p => decide (p = nh))).length ↔ nh ∈ pm := by
  rw [List.length_pos_iff_exists_mem]
  constructor
  · rintro ⟨a, ha⟩
    rw [List.mem_filter] at ha
    have hp : a = nh := by simpa using ha.2
    rw [← hp]; exact ha.1
  · intro hmem
    exact ⟨nh, List.mem_filter.mpr ⟨hmem, by simp⟩⟩

lemma ehh_go_eq_neg1000_of_fatal (nh : Point) (my_length : Nat) (bw bh : Int) :
    ∀ (opponents : List Snake) (s : Rat),
      fatal_threat nh my_length opponents bw bh →
      ehh_go nh my_length bw bh opponents s = -1000 := by
  intro opponents
  induction opponents with
  | nil => rintro s ⟨opp, hmem, _⟩; exact absurd hmem (List.not_mem_nil _)
  | cons o rest ih =>
    rintro s ⟨opp, hmem, hlen, hreach⟩
    rw [ehh_go]
    by_cases hcond : my_length ≤ o.body.length ∧
        0 < ((get_possible_moves o.head bw bh).filter (fun p => decide (p = nh))).length
    · rw [if_pos hcond]
    · rw [if_neg hcond]
      apply ih
      rcases List.mem_cons.mp hmem with rfl | hmem2
      · exact absurd ⟨hlen, (matches_pos_iff nh _).mpr hreach⟩ hcond
      · exact ⟨opp, hmem2, hlen, hreach⟩

lemma ehh_go_ge_of_not_fatal (nh : Point) (my_length : Nat) (bw bh : Int) :
    ∀ (opponents : List Snake) (s : Rat),
      ¬ fatal_threat nh my_length opponents bw bh →
      s ≤ ehh_go nh my_length bw bh opponents s := by
  intro opponents
  induction opponents with
  | nil => intro s _; exact le_refl s
  | cons o rest ih =>
    intro s hnf
    rw [ehh_go]
    have hcond : ¬ (my_length ≤ o.body.length ∧
        0 < ((get_possible_moves o.head bw bh).filter (fun p => decide (p = nh))).length) := by
      intro ⟨h1, h2⟩
      exact hnf ⟨o, List.mem_cons_self _ _, h1, (matches_pos_iff nh _).mp h2⟩
    rw [if_neg hcond]
    have hnf2 : ¬ fatal_threat nh my_length rest bw bh := by
      rintro ⟨opp, hmem, hrest⟩
      exact hnf ⟨opp, List.mem_cons_of_mem _ hmem, hrest⟩
    refine le_trans ?_ (ih _ hnf2)
    by_cases hsm : o.body.length < my_length
    · rw [if_pos hsm]
      have hm : (0 : Rat) ≤ 50 * (((get_possible_moves o.head bw bh).filter
          (fun p => decide (p = nh))).length : Rat) := by positivity
      by_cases hd : get_distance nh o.head < 3
      · rw [if_pos hd]
        have hdist : (0 : Rat) ≤ ((3 - get_distance nh o.head : Int) : Rat) * 10 := by
          have : (0 : Int) ≤ 3 - get_distance nh o.head := by omega
          positivity
        linarith
      · rw [if_neg hd]; linarith
    · rw [if_neg hsm]

lemma ehh_eq_neg1000_iff (nh : Point) (my_length : Nat)
    (opponents : List Snake) (bw bh : Int) :
    evaluate_head_to_head nh my_length opponents bw bh = -1000 ↔
      fatal_threat nh my_length opponents bw bh := by
  constructor
  · intro heq
    by_contra hnf
    have := ehh_go_ge_of_not_fatal nh my_length bw bh opponents 0 hnf
    rw [evaluate_head_to_head] at heq
    rw [heq] at this
    norm_num at this
  · exact ehh_go_eq_neg1000_of_fatal nh my_length bw bh opponents 0

lemma validate_eq_false_iff (nh : Point) (my_length : Nat)
    (opponents : List Snake) (bw bh : Int) :
    validate_move_against_opponents nh my_length opponents bw bh = false ↔
      fatal_threat nh my_length opponents bw bh := by
  unfold validate_move_against_opponents fatal_threat
  constructor
  · intro hfalse
    have hne : ¬ (opponents.all (fun opp =>
        if opp.body.length < my_length then true
        else (get_possible_moves opp.head bw bh).all
          (fun p => decide (¬ p = nh))) = true) := by
      rw [hfalse]; exact Bool.false_ne_true
    rw [List.all_eq_true] at hne
    push_neg at hne
    obtain ⟨opp, hmem, hfail⟩ := hne
    refine ⟨opp, hmem, ?_⟩
    by_cases hlen : opp.body.length < my_length
    · rw [if_pos hlen] at hfail; exact absurd rfl hfail
    · rw [if_neg hlen] at hfail
      have hfail2 : ¬ ∀ p ∈ get_possible_moves opp.head bw bh, decide (¬ p = nh) = true := by
        rw [← List.all_eq_true]; exact hfail
      push_neg at hfail2
      obtain ⟨p, hpm, hpe⟩ := hfail2
      have hp : p = nh := by simpa using hpe
      exact ⟨by omega, hp ▸ hpm⟩
  · rintro ⟨opp, hmem, hlen, hreach⟩
    rw [Bool.eq_false_iff]
    intro hall
    rw [List.all_eq_true] at hall
    have hthis := hall opp hmem
    rw [if_neg (by omega), List.all_eq_true] at hthis
    have hcon := hthis nh hreach
    simp at hcon

/-- c2: the threat check marks a candidate fatal exactly when some opponent
whose length is at least self length has the candidate cell among its own
in-bounds one-step neighbours: `validate_move_against_opponents` returns
`false` exactly under that condition, and `evaluate_head_to_head` returns
the instant-loss value `-1000` exactly under that condition; a strictly
shorter opponent never triggers either. -/
theorem threat_model_fatal_iff (nh : Point) (my_length : Nat)
    (opponents : List Snake) (bw bh : Int) :
    (validate_move_against_opponents nh my_length opponents bw bh = false ↔
      ∃ opp ∈ opponents, my_length ≤ opp.body.length ∧
        nh ∈ get_possible_moves opp.head bw bh)
    ∧ (evaluate_head_to_head nh my_length opponents bw bh = -1000 ↔
      ∃ opp ∈ opponents, my_length ≤ opp.body.length ∧
        nh ∈ get_possible_moves opp.head bw bh) :=
  ⟨validate_eq_false_iff nh my_length opponents bw bh,
    ehh_eq_neg1000_iff nh my_length opponents bw bh⟩

/-- `check_opponent_bodies` from `src/main.py`: collision with opponent
bodies where each opponent's tail is dropped unless that opponent's head is
at Manhattan distance 1 from some food cell (about to eat). -/
def check_opponent_bodies (nh : Point) (opponents : List Snake)
    (food : List Point) : Bool :=
  opponents.any (fun opp =>
    let about_to_eat := food.any (fun f => decide (get_distance opp.head f = 1))
    let segments_to_check := if about_to_eat then opp.body else opp.body.dropLast
    segments_to_check.any (fun seg => decide (seg = nh)))

lemma about_to_eat_iff (o : Snake) (food : List Point) :
    (food.any (fun f => decide (get_distance o.head f = 1))) = true ↔
      ∃ f ∈ food, get_distance o.head f = 1 := by
  simp [List.any_eq_true]

/-- c8: collision against an opponent's tail cell is reported exactly when
that opponent is about to eat, i.e. its head is at Manhattan distance 1
from some food cell; otherwise the tail is treated as vacating.  Stated for
a candidate head that lies on the opponent's tail and on no earlier body
segment of that opponent. -/
theorem opponent_tail_collision_iff (nh : Point) (o : Snake) (food : List Point)
    (hne : o.body ≠ []) (htail : nh = o.body.getLastD ⟨0, 0⟩)
    (hnotrest : nh ∉ o.body.dropLast) :
    check_opponent_bodies nh [o] food = true ↔
      ∃ f ∈ food, get_distance o.head f = 1 := by
  unfold check_opponent_bodies
  simp only [List.any_cons, List.any_nil, Bool.or_false]
  by_cases hate : (food.any (fun f => decide (get_distance o.head f = 1))) = true
  · rw [if_pos hate]
    rw [about_to_eat_iff] at hate
    refine iff_of_true ?_ hate
    rw [List.any_eq_true]
    refine ⟨nh, ?_, by simp⟩
    rw [htail]
    rw [List.getLastD_eq_getLast?, List.getLast?_eq_getLast _ hne]
    simp only [Option.getD_some]
    exact List.getLast_mem hne
  · rw [if_neg hate]
    rw [about_to_eat_iff] at hate
    refine iff_of_false ?_ hate
    intro hany
    rw [List.any_eq_true] at hany
    obtain ⟨seg, hseg, hdec⟩ := hany
    have hsn : seg = nh := by simpa using hdec
    exact hnotrest (hsn ▸ hseg)

/-- `min(food, key=...)` in `evaluate_food_seeking`: first element of the
list minimising the Manhattan distance to `ref` (Python `min` keeps the
first minimiser). -/
def list_min_by_dist (ref : Point) : Point → List Point → Point
  | best, [] => best
  | best, f :: rest =>
    if get_distance ref f < get_distance ref best then list_min_by_dist ref f rest
    else list_min_by_dist ref best rest

/-- Opponent-contest loop of `evaluate_food_seeking`: accumulates score
penalties and the contested flag. -/
def food_contest_fold (nearest : Point) (d_new : Int) (my_length : Nat)
    (opponents : List Snake) (init : Rat × Bool) : Rat × Bool :=
  opponents.foldl (fun acc o =>
    let od := get_distance o.head nearest
    if od < d_new then
      if my_length ≤ o.body.length then (acc.1 - 20, true)
      else (acc.1 - 5, acc.2)
    else acc) init

/-- `evaluate_food_seeking` from `src/main.py`. -/
def evaluate_food_seeking (nh mh : Point) (food : List Point)
    (opponents : List Snake) (my_length : Nat) : Rat :=
  match food with
  | [] => 0
  | f0 :: rest =>
    let nearest := list_min_by_dist mh f0 rest
    let d_new := get_distance nh nearest
    let d_cur := get_distance mh nearest
    let s : Rat :=
      if d_new < d_cur then
        let s1 : Rat := 25
        let s2 := if d_cur - d_new = 1 then s1 + 10 else s1
        if d_new = 0 then s2 + 100 else if d_new = 1 then s2 + 40 else s2
      else if d_cur < d_new then -10 else 0
    let pc := food_contest_fold nearest d_new my_length opponents (s, false)
    if pc.2 = true ∧ 1 < (f0 :: rest).length then
      let others := (f0 :: rest).filter (fun f => decide (¬ f = nearest))
      match others with
      | [] => pc.1
      | o0 :: orest =>
        let alt := list_min_by_dist mh o0 orest
        if get_distance nh alt < get_distance mh alt then pc.1 + 15 else pc.1
    else pc.1

lemma food_contest_fold_id (nearest : Point) (d_new : Int) (my_length : Nat) :
    ∀ (opponents : List Snake) (init : Rat × Bool),
      (∀ o ∈ opponents, ¬ get_distance o.head nearest < d_new) →
      food_contest_fold nearest d_new my_length opponents init = init := by
  intro opponents
  induction opponents with
  | nil => intro init _; rfl
  | cons o rest ih =>
    intro init hno
    unfold food_contest_fold
    rw [List.foldl_cons]
    have hod : ¬ get_distance o.head nearest < d_new :=
      hno o (List.mem_cons_self _ _)
    simp only [if_neg hod]
    exact ih init (fun o2 hmem => hno o2 (List.mem_cons_of_mem _ hmem))

/-- c7 amended: the food-seeking sub-score is exactly 0 on an empty food
list; and when the candidate strictly reduces the distance to the nearest
food and no opponent is strictly nearer to that food than the candidate,
the sub-score is strictly positive.  (Without the no-nearer-opponent
condition the contest penalties can push the score negative; see the
counterexample.) -/
theorem food_seeking_zero_and_positive (nh mh : Point) (food : List Point)
    (opponents : List Snake) (my_length : Nat) :
    (evaluate_food_seeking nh mh [] opponents my_length = 0)
    ∧ (∀ f0 rest, food = f0 :: rest →
        get_distance nh (list_min_by_dist mh f0 rest)
            < get_distance mh (list_min_by_dist mh f0 rest) →
        (∀ o ∈ opponents, ¬ get_distance o.head (list_min_by_dist mh f0 rest)
            < get_distance nh (list_min_by_dist mh f0 rest)) →
        0 < evaluate_food_seeking nh mh food opponents my_length) := by
  constructor
  · rfl
  · intro f0 rest hfood hred hno
    subst hfood
    unfold evaluate_food_seeking
    simp only
    set nearest := list_min_by_dist mh f0 rest with hnear
    set d_new := get_distance nh nearest with hdn
    set d_cur := get_distance mh nearest with hdc
    have hfold := food_contest_fold_id nearest d_new my_length opponents
      ((if d_new < d_cur then
          let s1 : Rat := 25
          let s2 := if d_cur - d_new = 1 then s1 + 10 else s1
          if d_new = 0 then s2 + 100 else if d_new = 1 then s2 + 40 else s2
        else if d_cur < d_new then -10 else 0), false) hno
    rw [hfold]
    simp only [Bool.false_eq_true, false_and, if_false]
    rw [if_pos hred]
    have h25 : (25 : Rat) ≤
        (let s1 : Rat := 25
         let s2 := if d_cur - d_new = 1 then s1 + 10 else s1
         if d_new = 0 then s2 + 100 else if d_new = 1 then s2 + 40 else s2) := by
      simp only
      split_ifs <;> norm_num
    linarith

/-- c7 counterexample: with a single food at distance 4 contested by two
equal-length opponents that are nearer to it, a candidate that strictly
reduces the distance to the nearest food still gets a strictly negative
food-seeking sub-score (-5), refuting strict positivity as claimed. -/
theorem food_seeking_counterexample :
    get_distance ⟨1, 0⟩ (list_min_by_dist ⟨0, 0⟩ ⟨4, 0⟩ [])
        < get_distance ⟨0, 0⟩ (list_min_by_dist ⟨0, 0⟩ ⟨4, 0⟩ [])
    ∧ evaluate_food_seeking ⟨1, 0⟩ ⟨0, 0⟩ [⟨4, 0⟩]
        [⟨"o1", ⟨4, 1⟩, [⟨4, 1⟩], 100⟩, ⟨"o2", ⟨4, 2⟩, [⟨4, 2⟩], 100⟩] 1 = -5
    ∧ ¬ (0 < evaluate_food_seeking ⟨1, 0⟩ ⟨0, 0⟩ [⟨4, 0⟩]
        [⟨"o1", ⟨4, 1⟩, [⟨4, 1⟩], 100⟩, ⟨"o2", ⟨4, 2⟩, [⟨4, 2⟩], 100⟩] 1) := by
  refine ⟨by decide, ?_, ?_⟩
  · norm_num [evaluate_food_seeking, list_min_by_dist, food_contest_fold,
      get_distance]
  · norm_num [evaluate_food_seeking, list_min_by_dist, food_contest_fold,
      get_distance]

/-- c7 witness for the amended theorem at a concrete input. -/
theorem food_seeking_positive_witness :
    0 < evaluate_food_seeking ⟨1, 0⟩ ⟨0, 0⟩ [⟨2, 0⟩] [] 1 :=
  (food_seeking_zero_and_positive ⟨1, 0⟩ ⟨0, 0⟩ [⟨2, 0⟩] [] 1).2 ⟨2, 0⟩ [] rfl
    (by decide) (by intro o hmem; exact absurd hmem (List.not_mem_nil _))

/-- c8 witness at a concrete input: opponent about to eat, candidate on its
tail. -/
theorem opponent_tail_collision_witness :
    check_opponent_bodies ⟨1, 0⟩ [⟨"o", ⟨0, 0⟩, [⟨0, 0⟩, ⟨1, 0⟩], 100⟩] [⟨0, 1⟩] = true ↔
      ∃ f ∈ [(⟨0, 1⟩ : Point)], get_distance ⟨0, 0⟩ f = 1 :=
  opponent_tail_collision_iff ⟨1, 0⟩ ⟨"o", ⟨0, 0⟩, [⟨0, 0⟩, ⟨1, 0⟩], 100⟩ [⟨0, 1⟩]
    (by decide) (by decide) (by decide)

/-- One step of the bounded breadth-first flood-fill loop shared by
`count_reachable_space`, `evaluate_space` and `evaluate_space_advanced` in
`src/main.py` (`while queue: x, y, depth = queue.popleft() ...`), with the
depth cutoff `bound` as a parameter.  The state is the FIFO queue, the
visited set (a duplicate-free list), and the two visit counters
(`immediate_space` for visits with `depth < imm_bound`, `extended_space`
for the rest; the single-horizon loops use `imm_bound = bound` so that the
first counter is exactly the `accessible` counter of the source).  Python's
`while` loop is modelled with a fuel parameter; `bfs_fuel` below is proved
sufficient. -/
def bfs_loop (occ : Int → Int → Bool) (w h : Int) (imm_bound bound : Nat) :
    Nat → List (Int × Int × Nat) → List (Int × Int) → Nat → Nat →
      List (Int × Int) × Nat × Nat
  | 0, _, visited, imm, ext => (visited, imm, ext)
  | _ + 1, [], visited, imm, ext => (visited, imm, ext)
  | fuel + 1, (x, y, depth) :: rest, visited, imm, ext =>
    if bound ≤ depth then bfs_loop occ w h imm_bound bound fuel rest visited imm ext
    else if (x, y) ∈ visited then bfs_loop occ w h imm_bound bound fuel rest visited imm ext
    else if x < 0 ∨ w ≤ x ∨ y < 0 ∨ h ≤ y then
      bfs_loop occ w h imm_bound bound fuel rest visited imm ext
    else if occ x y then bfs_loop occ w h imm_bound bound fuel rest visited imm ext
    else
      let visited2 := (x, y) :: visited
      let imm2 := if depth < imm_bound then imm + 1 else imm
      let ext2 := if depth < imm_bound then ext else ext + 1
      bfs_loop occ w h imm_bound bound fuel
        (rest ++ [(x + 1, y, depth + 1), (x - 1, y, depth + 1),
                  (x, y + 1, depth + 1), (x, y - 1, depth + 1)])
        visited2 imm2 ext2

/-- Canonical fuel for `bfs_loop`: one more than five times the board area,
an upper bound on the number of loop iterations (proved sufficient in
`bfs_loop_fuel_succ`). -/
def bfs_fuel (w h : Int) : Nat :=
  1 + 5 * (w.toNat * h.toNat)

/-- Run the flood fill from a start cell, as every call site in
`src/main.py` does: initial queue `[(start, 0)]`, empty visited set. -/
def bfs_run (occ : Int → Int → Bool) (w h : Int) (imm_bound bound : Nat)
    (sx sy : Int) : List (Int × Int) × Nat × Nat :=
  bfs_loop occ w h imm_bound bound (bfs_fuel w h) [(sx, sy, 0)] [] 0 0

/-- Queue well-formedness maintained by the FIFO breadth-first loop: entry
depths are non-decreasing and any two differ by at most one. -/
def queue_inv (q : List (Int × Int × Nat)) : Prop :=
  List.Pairwise (fun a b => a.2.2 ≤ b.2.2) q ∧
    ∀ a ∈ q, ∀ b ∈ q, a.2.2 ≤ b.2.2 + 1

lemma queue_inv_push (x y : Int) (k : Nat) (rest : List (Int × Int × Nat))
    (hinv : queue_inv ((x, y, k) :: rest)) :
    queue_inv (rest ++ [(x + 1, y, k + 1), (x - 1, y, k + 1),
      (x, y + 1, k + 1), (x, y - 1, k + 1)]) := by
  obtain ⟨hsort, hbnd⟩ := hinv
  rw [List.pairwise_cons] at hsort
  obtain ⟨hhead, hrest⟩ := hsort
  have hval : ∀ c ∈ [((x + 1 : Int), y, k + 1), (x - 1, y, k + 1),
      (x, y + 1, k + 1), (x, y - 1, k + 1)], c.2.2 = k + 1 := by
    intro c hc
    simp only [List.mem_cons, List.not_mem_nil, or_false] at hc
    rcases hc with rfl | rfl | rfl | rfl <;> rfl
  constructor
  · rw [List.pairwise_append]
    refine ⟨hrest, ?_, ?_⟩
    · refine List.Pairwise.cons ?_ (List.Pairwise.cons ?_
        (List.Pairwise.cons ?_ (List.Pairwise.cons ?_ List.Pairwise.nil)))
      · intro b hb
        have hbv : b.2.2 = k + 1 := hval b (List.mem_cons_of_mem _ hb)
        show k + 1 ≤ b.2.2
        omega
      · intro b hb
        have hbv : b.2.2 = k + 1 :=
          hval b (List.mem_cons_of_mem _ (List.mem_cons_of_mem _ hb))
        show k + 1 ≤ b.2.2
        omega
      · intro b hb
        have hbv : b.2.2 = k + 1 := hval b
          (List.mem_cons_of_mem _ (List.mem_cons_of_mem _ (List.mem_cons_of_mem _ hb)))
        show k + 1 ≤ b.2.2
        omega
      · intro b hb
        exact absurd hb (List.not_mem_nil _)
    · intro a ha b hb
      have h1 : a.2.2 ≤ k + 1 :=
        hbnd a (List.mem_cons_of_mem _ ha) (x, y, k) (List.mem_cons_self _ _)
      have h2 : b.2.2 = k + 1 := hval b hb
      omega
  · intro a ha b hb
    rw [List.mem_append] at ha hb
    rcases ha with ha | ha
    · rcases hb with hb | hb
      · exact hbnd a (List.mem_cons_of_mem _ ha) b (List.mem_cons_of_mem _ hb)
      · have h1 : a.2.2 ≤ k + 1 :=
          hbnd a (List.mem_cons_of_mem _ ha) (x, y, k) (List.mem_cons_self _ _)
        have h2 : b.2.2 = k + 1 := hval b hb
        omega
    · rcases hb with hb | hb
      · have h1 : a.2.2 = k + 1 := hval a ha
        have h2 : k ≤ b.2.2 := hhead b hb
        omega
      · have h1 : a.2.2 = k + 1 := hval a ha
        have h2 : b.2.2 = k + 1 := hval b hb
        omega

lemma queue_inv_tail (e : Int × Int × Nat) (rest : List (Int × Int × Nat))
    (hinv : queue_inv (e :: rest)) : queue_inv rest := by
  obtain ⟨hsort, hbnd⟩ := hinv
  exact ⟨(List.pairwise_cons.mp hsort).2,
    fun a ha b hb => hbnd a (List.mem_cons_of_mem _ ha) b (List.mem_cons_of_mem _ hb)⟩

lemma bfs_loop_all_deep (occ : Int → Int → Bool) (w h : Int)
    (imm_bound bound : Nat) :
    ∀ (fuel : Nat) (q : List (Int × Int × Nat)) (visited : List (Int × Int))
      (imm ext : Nat), (∀ e ∈ q, bound ≤ e.2.2) →
      bfs_loop occ w h imm_bound bound fuel q visited imm ext = (visited, imm, ext) := by
  intro fuel
  induction fuel with
  | zero => intro q visited imm ext _; rfl
  | succ n ih =>
    intro q visited imm ext hdeep
    match q with
    | [] => rfl
    | (x, y, depth) :: rest =>
      rw [bfs_loop]
      rw [if_pos (hdeep (x, y, depth) (List.mem_cons_self _ _))]
      exact ih rest visited imm ext (fun e he => hdeep e (List.mem_cons_of_mem _ he))

lemma bfs_loop_visited_grows (occ : Int → Int → Bool) (w h : Int)
    (imm_bound bound : Nat) :
    ∀ (fuel : Nat) (q : List (Int × Int × Nat)) (visited : List (Int × Int))
      (imm ext : Nat) (c : Int × Int), c ∈ visited →
      c ∈ (bfs_loop occ w h imm_bound bound fuel q visited imm ext).1 := by
  intro fuel
  induction fuel with
  | zero => intro q visited imm ext c hc; exact hc
  | succ n ih =>
    intro q visited imm ext c hc
    match q with
    | [] => exact hc
    | (x, y, depth) :: rest =>
      rw [bfs_loop]
      by_cases h1 : bound ≤ depth
      · rw [if_pos h1]; exact ih _ _ _ _ _ hc
      · rw [if_neg h1]
        by_cases h2 : (x, y) ∈ visited
        · rw [if_pos h2]; exact ih _ _ _ _ _ hc
        · rw [if_neg h2]
          by_cases h3 : x < 0 ∨ w ≤ x ∨ y < 0 ∨ h ≤ y
          · rw [if_pos h3]; exact ih _ _ _ _ _ hc
          · rw [if_neg h3]
            by_cases h4 : occ x y
            · rw [if_pos h4]; exact ih _ _ _ _ _ hc
            · rw [if_neg h4]
              exact ih _ _ _ _ _ (List.mem_cons_of_mem _ hc)

lemma bfs_loop_mono (occ : Int → Int → Bool) (w h : Int) (imm_bound : Nat)
    (m m2 : Nat) (hm : m ≤ m2) :
    ∀ (fuel : Nat) (q : List (Int × Int × Nat)) (visited : List (Int × Int))
      (imm ext : Nat), queue_inv q →
      ∀ c ∈ (bfs_loop occ w h imm_bound m fuel q visited imm ext).1,
        c ∈ (bfs_loop occ w h imm_bound m2 fuel q visited imm ext).1 := by
  intro fuel
  induction fuel with
  | zero => intro q visited imm ext _ c hc; exact hc
  | succ n ih =>
    intro q visited imm ext hinv c hc
    match q with
    | [] => exact hc
    | (x, y, depth) :: rest =>
      by_cases h1 : m ≤ depth
      · rw [bfs_loop, if_pos h1] at hc
        have hall : ∀ e ∈ (x, y, depth) :: rest, m ≤ e.2.2 := by
          intro e he
          rcases List.mem_cons.mp he with rfl | he2
          · exact h1
          · have h2 : depth ≤ e.2.2 := (List.pairwise_cons.mp hinv.1).1 e he2
            omega
        rw [bfs_loop_all_deep occ w h imm_bound m n rest visited imm ext
          (fun e he => hall e (List.mem_cons_of_mem _ he))] at hc
        exact bfs_loop_visited_grows occ w h imm_bound m2 (n + 1) _ _ _ _ c hc
      · have h1b : ¬ m2 ≤ depth := by omega
        rw [bfs_loop, if_neg h1] at hc
        rw [bfs_loop, if_neg h1b]
        by_cases h2 : (x, y) ∈ visited
        · rw [if_pos h2] at hc ⊢
          exact ih rest visited imm ext (queue_inv_tail _ _ hinv) c hc
        · rw [if_neg h2] at hc ⊢
          by_cases h3 : x < 0 ∨ w ≤ x ∨ y < 0 ∨ h ≤ y
          · rw [if_pos h3] at hc ⊢
            exact ih rest visited imm ext (queue_inv_tail _ _ hinv) c hc
          · rw [if_neg h3] at hc ⊢
            by_cases h4 : occ x y
            · rw [if_pos h4] at hc ⊢
              exact ih rest visited imm ext (queue_inv_tail _ _ hinv) c hc
            · rw [if_neg h4] at hc ⊢
              exact ih _ _ _ _ (queue_inv_push x y depth rest hinv) c hc

lemma bfs_loop_nodup (occ : Int → Int → Bool) (w h : Int)
    (imm_bound bound : Nat) :
    ∀ (fuel : Nat) (q : List (Int × Int × Nat)) (visited : List (Int × Int))
      (imm ext : Nat), visited.Nodup →
      (bfs_loop occ w h imm_bound bound fuel q visited imm ext).1.Nodup := by
  intro fuel
  induction fuel with
  | zero => intro q visited imm ext hd; exact hd
  | succ n ih =>
    intro q visited imm ext hd
    match q with
    | [] => exact hd
    | (x, y, depth) :: rest =>
      rw [bfs_loop]
      by_cases h1 : bound ≤ depth
      · rw [if_pos h1]; exact ih _ _ _ _ hd
      · rw [if_neg h1]
        by_cases h2 : (x, y) ∈ visited
        · rw [if_pos h2]; exact ih _ _ _ _ hd
        · rw [if_neg h2]
          by_cases h3 : x < 0 ∨ w ≤ x ∨ y < 0 ∨ h ≤ y
          · rw [if_pos h3]; exact ih _ _ _ _ hd
          · rw [if_neg h3]
            by_cases h4 : occ x y
            · rw [if_pos h4]; exact ih _ _ _ _ hd
            · rw [if_neg h4]
              exact ih _ _ _ _ (List.nodup_cons.mpr ⟨h2, hd⟩)

lemma queue_inv_singleton (sx sy : Int) : queue_inv [(sx, sy, 0)] := by
  constructor
  · simp
  · intro a ha b hb
    rw [List.mem_singleton] at ha hb
    subst ha; subst hb; omega

/-- c9: the bounded flood fill is monotone in the depth bound: with the
cutoff taken as a parameter (instantiated at 6 in `count_reachable_space`,
4 in `evaluate_space`, 3/7 in `evaluate_space_advanced`), every cell
visited (counted) under bound `d` is also visited under any bound
`d2 ≥ d`, and the reachable-cell count is non-decreasing. -/
theorem flood_fill_monotone_in_depth (occ : Int → Int → Bool) (w h : Int)
    (imm_bound : Nat) (sx sy : Int) (d d2 : Nat) (hd : d ≤ d2) :
    (∀ c ∈ (bfs_run occ w h imm_bound d sx sy).1,
        c ∈ (bfs_run occ w h imm_bound d2 sx sy).1)
    ∧ (bfs_run occ w h imm_bound d sx sy).1.length ≤
        (bfs_run occ w h imm_bound d2 sx sy).1.length := by
  have hsub : ∀ c ∈ (bfs_run occ w h imm_bound d sx sy).1,
      c ∈ (bfs_run occ w h imm_bound d2 sx sy).1 :=
    bfs_loop_mono occ w h imm_bound d d2 hd (bfs_fuel w h)
      [(sx, sy, 0)] [] 0 0 (queue_inv_singleton sx sy)
  refine ⟨hsub, ?_⟩
  have hnd : (bfs_run occ w h imm_bound d sx sy).1.Nodup :=
    bfs_loop_nodup occ w h imm_bound d (bfs_fuel w h) [(sx, sy, 0)] [] 0 0 List.nodup_nil
  calc (bfs_run occ w h imm_bound d sx sy).1.length
      = (bfs_run occ w h imm_bound d sx sy).1.toFinset.card :=
        (List.toFinset_card_of_nodup hnd).symm
    _ ≤ (bfs_run occ w h imm_bound d2 sx sy).1.toFinset.card := by
        apply Finset.card_le_card
        intro c hcf
        rw [List.mem_toFinset] at hcf ⊢
        exact hsub c hcf
    _ ≤ (bfs_run occ w h imm_bound d2 sx sy).1.length := List.toFinset_card_le _

/-- c9 witness: the monotonicity theorem applied at a concrete occupancy,
board, start cell and bounds 2 ≤ 3. -/
theorem flood_fill_monotone_witness :
    (∀ c ∈ (bfs_run (fun _ _ => false) 5 5 3 2 2 2).1,
        c ∈ (bfs_run (fun _ _ => false) 5 5 3 3 2 2).1)
    ∧ (bfs_run (fun _ _ => false) 5 5 3 2 2 2).1.length ≤
        (bfs_run (fun _ _ => false) 5 5 3 3 2 2).1.length :=
  flood_fill_monotone_in_depth (fun _ _ => false) 5 5 3 2 2 2 3 (by decide)

/-- In-bounds predicate used for counting visited cells. -/
def in_bounds_cell (w h : Int) (c : Int × Int) : Bool :=
  decide (0 ≤ c.1 ∧ c.1 < w ∧ 0 ≤ c.2 ∧ c.2 < h)

/-- Termination measure of the flood-fill loop: queue length plus five times
the number of board cells not yet visited. -/
def bfs_measure (w h : Int) (q : List (Int × Int × Nat))
    (v : List (Int × Int)) : Nat :=
  q.length + 5 * (w.toNat * h.toNat - (v.filter (in_bounds_cell w h)).length)

lemma in_bounds_count_le (w h : Int) (v : List (Int × Int)) (hnd : v.Nodup) :
    (v.filter (in_bounds_cell w h)).length ≤ w.toNat * h.toNat := by
  have hnd2 : (v.filter (in_bounds_cell w h)).Nodup := hnd.filter _
  have hsub : (v.filter (in_bounds_cell w h)).toFinset ⊆
      (Finset.Ico 0 w) ×ˢ (Finset.Ico 0 h) := by
    intro c hc
    rw [List.mem_toFinset] at hc
    have hcb := List.of_mem_filter hc
    rw [in_bounds_cell, decide_eq_true_eq] at hcb
    rw [Finset.mem_product, Finset.mem_Ico, Finset.mem_Ico]
    exact ⟨⟨hcb.1, hcb.2.1⟩, hcb.2.2.1, hcb.2.2.2⟩
  calc (v.filter (in_bounds_cell w h)).length
      = (v.filter (in_bounds_cell w h)).toFinset.card :=
        (List.toFinset_card_of_nodup hnd2).symm
    _ ≤ ((Finset.Ico (0 : Int) w) ×ˢ (Finset.Ico (0 : Int) h)).card :=
        Finset.card_le_card hsub
    _ = w.toNat * h.toNat := by
        rw [Finset.card_product, Int.card_Ico, Int.card_Ico]
        simp

/-- Fuel sufficiency: above the measure, one more unit of fuel never changes
the result, so the fuelled loop computes the limit of the Python `while`
loop. -/
lemma bfs_loop_fuel_succ (occ : Int → Int → Bool) (w h : Int)
    (imm_bound bound : Nat) :
    ∀ (fuel : Nat) (q : List (Int × Int × Nat)) (v : List (Int × Int))
      (imm ext : Nat), v.Nodup → bfs_measure w h q v ≤ fuel →
      bfs_loop occ w h imm_bound bound (fuel + 1) q v imm ext =
        bfs_loop occ w h imm_bound bound fuel q v imm ext := by
  intro fuel
  induction fuel with
  | zero =>
    intro q v imm ext hnd hmeas
    have hq : q = [] := by
      have : q.length = 0 := by
        unfold bfs_measure at hmeas
        omega
      exact List.length_eq_zero.mp this
    subst hq
    rfl
  | succ n ih =>
    intro q v imm ext hnd hmeas
    match q with
    | [] => rfl
    | (x, y, depth) :: rest =>
      have hrest_meas : bfs_measure w h rest v ≤ n := by
        unfold bfs_measure at hmeas ⊢
        rw [List.length_cons] at hmeas
        omega
      rw [bfs_loop, bfs_loop]
      by_cases h1 : bound ≤ depth
      · rw [if_pos h1, if_pos h1]
        exact ih rest v imm ext hnd hrest_meas
      · rw [if_neg h1, if_neg h1]
        by_cases h2 : (x, y) ∈ v
        · rw [if_pos h2, if_pos h2]
          exact ih rest v imm ext hnd hrest_meas
        · rw [if_neg h2, if_neg h2]
          by_cases h3 : x < 0 ∨ w ≤ x ∨ y < 0 ∨ h ≤ y
          · rw [if_pos h3, if_pos h3]
            exact ih rest v imm ext hnd hrest_meas
          · rw [if_neg h3, if_neg h3]
            by_cases h4 : occ x y
            · rw [if_pos h4, if_pos h4]
              exact ih rest v imm ext hnd hrest_meas
            · rw [if_neg h4, if_neg h4]
              have hnd2 : ((x, y) :: v).Nodup := List.nodup_cons.mpr ⟨h2, hnd⟩
              apply ih _ _ _ _ hnd2
              have hinb : in_bounds_cell w h (x, y) = true := by
                rw [in_bounds_cell, decide_eq_true_eq]
                push_neg at h3
                exact ⟨h3.1, h3.2.1, h3.2.2.1, h3.2.2.2⟩
              have hfil : (((x, y) :: v).filter (in_bounds_cell w h)).length =
                  (v.filter (in_bounds_cell w h)).length + 1 := by
                rw [List.filter_cons_of_pos hinb, List.length_cons]
              have hcap : (((x, y) :: v).filter (in_bounds_cell w h)).length ≤
                  w.toNat * h.toNat := in_bounds_count_le w h _ hnd2
              unfold bfs_measure at hmeas ⊢
              rw [List.length_append, List.length_cons] at *
              rw [hfil] at hcap ⊢
              simp only [List.length_cons, List.length_nil]
              omega

/-- Any fuel at or above the measure yields the same flood-fill result. -/
lemma bfs_loop_fuel_stable (occ : Int → Int → Bool) (w h : Int)
    (imm_bound bound : Nat) (q : List (Int × Int × Nat))
    (v : List (Int × Int)) (imm ext : Nat) (hnd : v.Nodup) :
    ∀ (k fuel : Nat), bfs_measure w h q v ≤ fuel →
      bfs_loop occ w h imm_bound bound (fuel + k) q v imm ext =
        bfs_loop occ w h imm_bound bound fuel q v imm ext := by
  intro k
  induction k with
  | zero => intro fuel _; rfl
  | succ n ih =>
    intro fuel hmeas
    have : fuel + (n + 1) = (fuel + n) + 1 := by omega
    rw [this]
    rw [bfs_loop_fuel_succ occ w h imm_bound bound (fuel + n) q v imm ext hnd
      (le_trans hmeas (by omega))]
    exact ih fuel hmeas

/-- Occupancy test of `count_reachable_space` in `src/main.py`: own body
minus tail, plus bodies minus tails of opponents whose length differs from
`exclude_length`. -/
def crs_occupied (own_body : List Point) (opponents : List Snake)
    (exclude_length : Nat) (x y : Int) : Bool :=
  own_body.dropLast.any (fun seg => decide (x = seg.x ∧ y = seg.y)) ||
    opponents.any (fun opp =>
      if opp.body.length = exclude_length then false
      else opp.body.dropLast.any (fun seg => decide (x = seg.x ∧ y = seg.y)))

/-- Occupancy test shared by `evaluate_space` and `evaluate_space_advanced`
in `src/main.py`: own body minus tail plus every opponent body minus tail. -/
def space_occupied (my_body : List Point) (opponents : List Snake)
    (x y : Int) : Bool :=
  my_body.dropLast.any (fun seg => decide (x = seg.x ∧ y = seg.y)) ||
    opponents.any (fun opp =>
      opp.body.dropLast.any (fun seg => decide (x = seg.x ∧ y = seg.y)))

/-- `count_reachable_space` from `src/main.py`: flood fill with depth cutoff
6; `accessible` is incremented exactly when a cell is visited, so it equals
the length of the visited list. -/
def count_reachable_space (start_pos : Point) (own_body : List Point)
    (opponents : List Snake) (board_width board_height : Int)
    (exclude_length : Nat) : Nat :=
  (bfs_run (crs_occupied own_body opponents exclude_length)
    board_width board_height 6 6 start_pos.x start_pos.y).1.length

/-- `evaluate_space` from `src/main.py` (deprecated in the source): flood
fill with depth cutoff 4, score `accessible * 2`. -/
def evaluate_space (nh : Point) (my_body : List Point) (opponents : List Snake)
    (board_width board_height : Int) : Nat :=
  (bfs_run (space_occupied my_body opponents)
    board_width board_height 4 4 nh.x nh.y).1.length * 2

/-- `evaluate_space_advanced` from `src/main.py`: two-horizon flood fill
(immediate depth < 3, extended depth < 7) plus the open-direction bonus. -/
def evaluate_space_advanced (nh : Point) (my_body : List Point)
    (opponents : List Snake) (board_width board_height : Int) : Rat :=
  let r := bfs_run (space_occupied my_body opponents)
    board_width board_height 3 7 nh.x nh.y
  let immediate_space := r.2.1
  let extended_space := r.2.2
  let open_directions :=
    (([((0 : Int), (1 : Int)), (0, -1), (1, 0), (-1, 0)]).filter (fun d =>
      let cx := nh.x + d.1
      let cy := nh.y + d.2
      decide (0 ≤ cx ∧ cx < board_width ∧ 0 ≤ cy ∧ cy < board_height) &&
        !(space_occupied my_body opponents cx cy))).length
  let s : Rat := (immediate_space : Rat) * 4 + (extended_space : Rat) * 1.5 +
    (open_directions : Rat) * 8
  let s := if open_directions < 2 then s - 20 else s
  if 3 ≤ open_directions then s + 15 else s

/-- `is_straight_line` from `src/main.py`: whether the move continues the
current heading (derived from head and neck). -/
def is_straight_line (body : List Point) (move : String) : Bool :=
  match body with
  | head :: neck :: _ =>
    let current_direction : Option String :=
      if neck.x < head.x then some "right"
      else if head.x < neck.x then some "left"
      else if neck.y < head.y then some "up"
      else if head.y < neck.y then some "down"
      else none
    decide (current_direction = some move)
  | _ => false

/-- `evaluate_hunting` from `src/main.py`. -/
def evaluate_hunting (nh : Point) (my_length : Nat) (opponents : List Snake)
    (bw bh : Int) : Rat :=
  opponents.foldl (fun s opp =>
    if opp.body.length < my_length then
      let d := get_distance nh opp.head
      if d ≤ 3 then s + ((4 - d : Int) : Rat) * 15
      else if d ≤ 5 then s + ((6 - d : Int) : Rat) * 5
      else s
    else s) 0

/-- `evaluate_underdog_avoidance` from `src/main.py`, including the
source's vacuous towards-larger-snake check (its `current_distance` is the
distance from the opponent head to itself, i.e. zero). -/
def evaluate_underdog_avoidance (nh : Point) (my_length : Nat)
    (opponents : List Snake) (bw bh : Int) : Rat :=
  opponents.foldl (fun s opp =>
    if my_length < opp.body.length then
      let d := get_distance nh opp.head
      let s1 :=
        if d ≤ 2 then s - 30
        else if d ≤ 4 then s - ((5 - d : Int) : Rat) * 8
        else if 6 ≤ d then s + 5
        else s
      let current_distance := get_distance opp.head
        ⟨nh.x - (nh.x - opp.head.x), nh.y - (nh.y - opp.head.y)⟩
      if d < current_distance then s1 - 15 else s1
    else s) 0

/-- `evaluate_blocking` from `src/main.py`. -/
def evaluate_blocking (nh : Point) (my_length : Nat) (my_health : Int)
    (opponents : List Snake) (bw bh : Int) : Rat :=
  if my_health < 30 then 0
  else
    opponents.foldl (fun s opp =>
      let s1 := (get_possible_moves opp.head bw bh).foldl (fun s2 opp_move =>
        if get_distance nh opp_move ≤ 1 then
          if opp.body.length < my_length then s2 + 20
          else if opp.body.length = my_length then s2 + 5
          else s2
        else s2) s
      let opponent_space :=
        count_reachable_space opp.head opp.body opponents bw bh my_length
      if opponent_space < 15 then
        if get_distance nh opp.head ≤ 2 ∧ opp.body.length < my_length then s1 + 15
        else s1
      else s1) 0

/-- `evaluate_center_control` from `src/main.py`. -/
def evaluate_center_control (nh : Point) (my_body : List Point)
    (my_length : Nat) (bw bh : Int) (opponents : List Snake) : Rat :=
  let center_x : Rat := (bw : Rat) / 2
  let center_y : Rat := (bh : Rat) / 2
  let dC : Rat := |(nh.x : Rat) - center_x| + |(nh.y : Rat) - center_y|
  let max_distance := center_x + center_y
  let s : Rat := (max_distance - dC) * 5
  let s := if dC ≤ 2 then s + 25 else if dC ≤ 4 then s + 10 else s
  let edge_distance := min (min nh.x nh.y) (min (bw - 1 - nh.x) (bh - 1 - nh.y))
  let s := if edge_distance = 0 then s - 15
    else if edge_distance = 1 then s - 8 else s
  let s := opponents.foldl (fun s opp =>
    let s1 := opp.body.foldl (fun s2 seg =>
      let d := |nh.x - seg.x| + |nh.y - seg.y|
      if d ≤ 1 then s2 - 30 else if d = 2 then s2 - 10 else s2) s
    let s2 := (get_possible_moves opp.head bw bh).foldl (fun s3 np =>
      if nh = np then s3 - 40
      else if |nh.x - np.x| + |nh.y - np.y| = 1 then s3 - 15 else s3) s1
    let head_distance := |nh.x - opp.head.x| + |nh.y - opp.head.y|
    if head_distance ≤ 2 then s2 - 25
    else if head_distance ≤ 3 then s2 - 10 else s2) s
  if 8 < my_length ∧ dC ≤ 3 then s + (my_length : Rat) * 1.5 else s

/-- `calculate_body_spread` from `src/main.py`. -/
def calculate_body_spread (my_body : List Point) (bw bh : Int) : Rat :=
  if my_body.length < 4 then 0
  else
    match my_body with
    | [] => 0
    | b0 :: _ =>
      let min_x := my_body.foldl (fun m seg => min m seg.x) b0.x
      let max_x := my_body.foldl (fun m seg => max m seg.x) b0.x
      let min_y := my_body.foldl (fun m seg => min m seg.y) b0.y
      let max_y := my_body.foldl (fun m seg => max m seg.y) b0.y
      let width := max_x - min_x + 1
      let height := max_y - min_y + 1
      let coverage_area : Rat := ((width * height : Int) : Rat)
      let board_area : Rat := ((bw * bh : Int) : Rat)
      coverage_area / board_area * 50

/-- `evaluate_body_blocking` from `src/main.py`.  The per-row and
per-column tallies of the Python dicts are order-independent sums over the
distinct coordinates in first-occurrence order. -/
def evaluate_body_blocking (nh : Point) (my_body : List Point)
    (opponents : List Snake) (bw bh : Int) (center_x center_y : Rat) : Rat :=
  if my_body.length < 8 then 0
  else
    let s : Rat := ((my_body.map (fun seg => seg.y)).dedup).foldl (fun s y =>
      let c := (my_body.filter (fun seg => decide (seg.y = y))).length
      if 4 ≤ c then s + (c : Rat) * 3 else s) 0
    let s := ((my_body.map (fun seg => seg.x)).dedup).foldl (fun s x =>
      let c := (my_body.filter (fun seg => decide (seg.x = x))).length
      if 4 ≤ c then s + (c : Rat) * 3 else s) s
    let center_crossed := my_body.any (fun seg =>
      decide (|(seg.x : Rat) - center_x| ≤ 1 ∨ |(seg.y : Rat) - center_y| ≤ 1))
    let s := if center_crossed = true ∧ 10 ≤ my_body.length then s + 15 else s
    opponents.foldl (fun s opp =>
      let segments_between := (my_body.filter (fun seg =>
        decide ((((opp.head.x : Rat) < seg.x ∧ (seg.x : Rat) < center_x) ∨
            (center_x < (seg.x : Rat) ∧ (seg.x : Rat) < opp.head.x)) ∧
          (((opp.head.y : Rat) < seg.y ∧ (seg.y : Rat) < center_y) ∨
            (center_y < (seg.y : Rat) ∧ (seg.y : Rat) < opp.head.y))))).length
      if 3 ≤ segments_between then s + 12 else s) s

/-- `evaluate_area_coverage` from `src/main.py`. -/
def evaluate_area_coverage (nh : Point) (my_body : List Point)
    (my_length : Nat) (my_health : Int) (opponents : List Snake)
    (bw bh : Int) : Rat :=
  if my_health < 20 ∨ my_length < 5 then 0
  else
    let center_x : Rat := (bw : Rat) / 2
    let center_y : Rat := (bh : Rat) / 2
    let quadrants_covered := (my_body.map (fun seg =>
      ((if (seg.x : Rat) < center_x then 0 else 1 : Nat),
       (if (seg.y : Rat) < center_y then 0 else 1 : Nat)))).dedup
    let s : Rat := (quadrants_covered.length : Rat) * 8
    let new_quadrant := ((if (nh.x : Rat) < center_x then 0 else 1 : Nat),
      (if (nh.y : Rat) < center_y then 0 else 1 : Nat))
    let s := if new_quadrant ∉ quadrants_covered then s + 20 else s
    let s := if 8 ≤ my_length then
        s + evaluate_body_blocking nh my_body opponents bw bh center_x center_y
      else s
    s + calculate_body_spread my_body bw bh * 3

/-- The situational modes selected by the Factor-4 branch chain of
`evaluate_move` in `src/main.py`. -/
inductive StrategyMode where
  | critical
  | closingGap
  | overgrown
  | conservative
  | underdog
  | competitive
  | survival
deriving DecidableEq, Repr

/-- `all_bigger` of `evaluate_move` in `src/main.py`: `False` when there are
no opponents, otherwise all opponents strictly longer. -/
def all_bigger_flag (my_length : Nat) (opponents : List Snake) : Bool :=
  !opponents.isEmpty && opponents.all (fun opp => decide (my_length < opp.body.length))

/-- `any_smaller` of `evaluate_move` in `src/main.py`. -/
def any_smaller_flag (my_length : Nat) (opponents : List Snake) : Bool :=
  !opponents.isEmpty && opponents.any (fun opp => decide (opp.body.length < my_length))

/-- Python `max` of a list of naturals (used only on non-empty lists). -/
def list_max_nat (l : List Nat) : Nat :=
  l.foldl Nat.max 0

/-- Python `min` of a list of naturals (used only on non-empty lists). -/
def list_min_nat (l : List Nat) : Nat :=
  match l with
  | [] => 0
  | x :: xs => xs.foldl Nat.min x

/-- `size_gap_from_largest` of `evaluate_move` in `src/main.py` (0 when
there are no opponents). -/
def size_gap_from_largest (my_length : Nat) (opponents : List Snake) : Int :=
  if opponents.isEmpty then 0
  else (list_max_nat (opponents.map (fun o => o.body.length)) : Int) - my_length

/-- `size_gap_from_smallest` of `evaluate_move` in `src/main.py` (0 when
there are no opponents). -/
def size_gap_from_smallest (my_length : Nat) (opponents : List Snake) : Int :=
  if opponents.isEmpty then 0
  else (my_length : Int) - list_min_nat (opponents.map (fun o => o.body.length))

/-- The Factor-4 branch chain of `evaluate_move` in `src/main.py`
(lines 262-302), with the source's conditions verbatim and first match
winning. -/
def scorer_strategy (my_health : Int) (my_length : Nat)
    (opponents : List Snake) : StrategyMode :=
  if my_health < 15 then .critical
  else if 2 ≤ size_gap_from_largest my_length opponents then .closingGap
  else if 2 ≤ size_gap_from_smallest my_length opponents ∧ 50 < my_health then .overgrown
  else if 20 < my_health ∧ 2 ≤ opponents.length then .conservative
  else if all_bigger_flag my_length opponents = true then .underdog
  else if 20 ≤ my_health ∧ any_smaller_flag my_length opponents = true then .competitive
  else .survival

/-- Modelled from the spec wording of section 4.4: the seven conditions in
the spec's order over (health, self length, opponent lengths), first match
winning.  This is the refinement counterpart against which the source's
branch chain is compared. -/
def spec_strategy (health : Int) (self_length : Nat) (opp_lengths : List Nat) :
    StrategyMode :=
  if health < 15 then .critical
  else if 2 ≤ (list_max_nat opp_lengths : Int) - self_length then .closingGap
  else if 2 ≤ (self_length : Int) - list_min_nat opp_lengths ∧ 50 < health then .overgrown
  else if 20 < health ∧ 2 ≤ opp_lengths.length then .conservative
  else if ∀ L ∈ opp_lengths, self_length < L then .underdog
  else if 20 ≤ health ∧ ∃ L ∈ opp_lengths, L < self_length then .competitive
  else .survival

/-- `evaluate_move` from `src/main.py`: straight-line bonus, the two
instant-fail collision returns, the head-to-head term, the mode-gated
Factor-4 block (dispatched through `scorer_strategy`, whose conditions are
the source's branch chain verbatim), space, center control and area
coverage. -/
def evaluate_move (move : String) (nh mh : Point) (my_body : List Point)
    (my_length : Nat) (my_health : Int) (opponents : List Snake)
    (food : List Point) (bw bh : Int) : Rat :=
  let s0 : Rat := if 2 ≤ my_body.length ∧ is_straight_line my_body move = true then 6 else 0
  if check_opponent_bodies nh opponents food then -1000
  else if my_body.dropLast.any (fun seg => decide (seg = nh)) then -1000
  else
    let s1 := s0 + evaluate_head_to_head nh my_length opponents bw bh
    let factor4 : Rat :=
      match scorer_strategy my_health my_length opponents with
      | .critical => evaluate_food_seeking nh mh food opponents my_length * 4.5
      | .closingGap =>
          evaluate_food_seeking nh mh food opponents my_length * 4 +
            (if 20 ≤ my_health then
              evaluate_underdog_avoidance nh my_length opponents bw bh * 2.5 else 0)
      | .overgrown =>
          evaluate_food_seeking nh mh food opponents my_length * 0.2 +
            evaluate_hunting nh my_length opponents bw bh * 2 +
            evaluate_blocking nh my_length my_health opponents bw bh * 2.5
      | .conservative =>
          evaluate_food_seeking nh mh food opponents my_length * 0.1 +
            (if any_smaller_flag my_length opponents = true then
              evaluate_hunting nh my_length opponents bw bh * 1 else 0) +
            (if all_bigger_flag my_length opponents = true ∨
                ¬ any_smaller_flag my_length opponents = true then
              evaluate_underdog_avoidance nh my_length opponents bw bh * 3 else 0)
      | .underdog =>
          evaluate_food_seeking nh mh food opponents my_length * 3.5 +
            (if 20 ≤ my_health then
              evaluate_underdog_avoidance nh my_length opponents bw bh * 2 else 0)
      | .competitive =>
          evaluate_hunting nh my_length opponents bw bh * 2 +
            evaluate_blocking nh my_length my_health opponents bw bh * 1.5 +
            (if ¬ food.isEmpty ∧ opponents.length < 2 then
              evaluate_food_seeking nh mh food opponents my_length * 1.5 else 0)
      | .survival => evaluate_food_seeking nh mh food opponents my_length * 2
    let s2 := s1 + factor4
    let s3 := s2 + evaluate_space_advanced nh my_body opponents bw bh * 2
    let s4 := s3 + (if 25 ≤ my_health ∧ 5 ≤ my_length then
      evaluate_center_control nh my_body my_length bw bh opponents * 2 else 0)
    s4 + (if 30 ≤ my_health ∧ 8 ≤ my_length then
      evaluate_area_coverage nh my_body my_length my_health opponents bw bh * 1.5 else 0)

/-- c5: for any non-empty opponent list, the Factor-4 branch chain of the
scorer evaluates exactly the spec's seven conditions in the spec's order
with first match winning. -/
theorem strategy_chain_matches_spec (my_health : Int) (my_length : Nat)
    (opponents : List Snake) (hne : opponents ≠ []) :
    scorer_strategy my_health my_length opponents =
      spec_strategy my_health my_length
        (opponents.map (fun opp => opp.body.length)) := by
  obtain ⟨o, rest, rfl⟩ := List.exists_cons_of_ne_nil hne
  have hall : (all_bigger_flag my_length (o :: rest) = true) ↔
      ∀ L ∈ (o :: rest).map (fun opp => opp.body.length), my_length < L := by
    unfold all_bigger_flag
    simp [List.all_eq_true]
  have hany : (any_smaller_flag my_length (o :: rest) = true) ↔
      ∃ L ∈ (o :: rest).map (fun opp => opp.body.length), L < my_length := by
    unfold any_smaller_flag
    simp [List.any_eq_true]
  unfold scorer_strategy spec_strategy size_gap_from_largest size_gap_from_smallest
  simp only [List.isEmpty_cons, Bool.false_eq_true, if_false, List.length_map,
    hall, hany]

/-- c5 witness: the strategy-chain equivalence applied at a concrete
health, length and single-opponent state. -/
theorem strategy_chain_matches_spec_witness :
    scorer_strategy 100 3 [⟨"a", ⟨0, 0⟩, [⟨0, 0⟩, ⟨0, 1⟩, ⟨0, 2⟩], 90⟩] =
      spec_strategy 100 3
        (([⟨"a", ⟨0, 0⟩, [⟨0, 0⟩, ⟨0, 1⟩, ⟨0, 2⟩], 90⟩] : List Snake).map
          (fun opp => opp.body.length)) :=
  strategy_chain_matches_spec 100 3 _ (by simp)

lemma no_self_hit_of_not_mem (nh : Point) (body : List Point)
    (hno : nh ∉ body.dropLast) :
    (body.dropLast.any (fun seg => decide (seg = nh))) = false := by
  rw [← Bool.not_eq_true, List.any_eq_true]
  rintro ⟨seg, hseg, hdec⟩
  have hsn : seg = nh := by simpa using hdec
  exact hno (hsn ▸ hseg)

/-- c6: with zero opponents (and health at least 15) the scorer is in the
food-seeking-only posture: the head-to-head term is zero, no hunting,
blocking or underdog-avoidance term appears, and the composite is the
straight-line bonus plus the food, space, center and coverage terms only. -/
theorem solo_scoring_food_only (move : String) (nh mh : Point)
    (my_body : List Point) (my_length : Nat) (my_health : Int)
    (food : List Point) (bw bh : Int)
    (hh : 15 ≤ my_health) (hself : nh ∉ my_body.dropLast) :
    evaluate_head_to_head nh my_length [] bw bh = 0 ∧
    evaluate_move move nh mh my_body my_length my_health [] food bw bh =
      (if 2 ≤ my_body.length ∧ is_straight_line my_body move = true then (6 : Rat) else 0)
      + evaluate_food_seeking nh mh food [] my_length * 2
      + evaluate_space_advanced nh my_body [] bw bh * 2
      + (if 25 ≤ my_health ∧ 5 ≤ my_length then
          evaluate_center_control nh my_body my_length bw bh [] * 2 else 0)
      + (if 30 ≤ my_health ∧ 8 ≤ my_length then
          evaluate_area_coverage nh my_body my_length my_health [] bw bh * 1.5 else 0) := by
  have hehh : evaluate_head_to_head nh my_length [] bw bh = 0 := rfl
  refine ⟨hehh, ?_⟩
  have hcob : check_opponent_bodies nh [] food = false := rfl
  have hmode : scorer_strategy my_health my_length [] = .survival := by
    have h15 : ¬ my_health < 15 := by omega
    simp [scorer_strategy, size_gap_from_largest, size_gap_from_smallest,
      all_bigger_flag, any_smaller_flag, h15]
  unfold evaluate_move
  rw [hcob]
  simp only [Bool.false_eq_true, if_false]
  rw [no_self_hit_of_not_mem nh my_body hself]
  simp only [Bool.false_eq_true, if_false, hmode, hehh]
  ring

/-- c6 witness at a concrete zero-opponent snapshot. -/
theorem solo_scoring_food_only_witness :
    evaluate_head_to_head ⟨0, 1⟩ 1 [] 3 3 = 0 ∧
    evaluate_move "up" ⟨0, 1⟩ ⟨0, 0⟩ [⟨0, 0⟩] 1 50 [] [] 3 3 =
      (if 2 ≤ ([(⟨0, 0⟩ : Point)]).length ∧
          is_straight_line [⟨0, 0⟩] "up" = true then (6 : Rat) else 0)
      + evaluate_food_seeking ⟨0, 1⟩ ⟨0, 0⟩ [] [] 1 * 2
      + evaluate_space_advanced ⟨0, 1⟩ [⟨0, 0⟩] [] 3 3 * 2
      + (if 25 ≤ (50 : Int) ∧ 5 ≤ 1 then
          evaluate_center_control ⟨0, 1⟩ [⟨0, 0⟩] 1 3 3 [] * 2 else 0)
      + (if 30 ≤ (50 : Int) ∧ 8 ≤ 1 then
          evaluate_area_coverage ⟨0, 1⟩ [⟨0, 0⟩] 1 50 [] 3 3 * 1.5 else 0) :=
  solo_scoring_food_only "up" ⟨0, 1⟩ ⟨0, 0⟩ [⟨0, 0⟩] 1 50 [] 3 3
    (by decide) (by decide)

/-- c3 amended: a candidate the threat model flags fatal receives the
instant-loss sentinel `-1000` as its head-to-head term, and an
opponent-body collision short-circuits the whole composite to `-1000`; the
composite of a head-to-head-fatal candidate, however, is `-1000` plus the
remaining sub-scores rather than the bare sentinel (see the
counterexample). -/
theorem fatal_candidate_sentinel (move : String) (nh mh : Point)
    (my_body : List Point) (my_length : Nat) (my_health : Int)
    (opponents : List Snake) (food : List Point) (bw bh : Int) :
    (fatal_threat nh my_length opponents bw bh →
      evaluate_head_to_head nh my_length opponents bw bh = -1000)
    ∧ (check_opponent_bodies nh opponents food = true →
      evaluate_move move nh mh my_body my_length my_health opponents food bw bh
        = -1000) := by
  constructor
  · exact ehh_go_eq_neg1000_of_fatal nh my_length bw bh opponents 0
  · intro hb
    unfold evaluate_move
    rw [hb]
    rfl

/-- c3 witness for the amended theorem at concrete inputs. -/
theorem fatal_candidate_sentinel_witness :
    evaluate_head_to_head ⟨1, 0⟩ 1 [⟨"o", ⟨2, 0⟩, [⟨2, 0⟩], 100⟩] 3 1 = -1000
    ∧ evaluate_move "up" ⟨1, 1⟩ ⟨1, 0⟩ [⟨1, 0⟩] 1 50
        [⟨"o", ⟨0, 1⟩, [⟨1, 1⟩, ⟨0, 1⟩], 100⟩] [] 3 3 = -1000 :=
  ⟨(fatal_candidate_sentinel "up" ⟨1, 0⟩ ⟨1, 0⟩ [⟨1, 0⟩] 1 50
      [⟨"o", ⟨2, 0⟩, [⟨2, 0⟩], 100⟩] [] 3 1).1 (by decide),
    (fatal_candidate_sentinel "up" ⟨1, 1⟩ ⟨1, 0⟩ [⟨1, 0⟩] 1 50
      [⟨"o", ⟨0, 1⟩, [⟨1, 1⟩, ⟨0, 1⟩], 100⟩] [] 3 3).2 (by decide)⟩

/-- c3 counterexample: on a 3-by-1 board the candidate cell (1,0) is
flagged fatal by the threat model (the equal-length opponent at (2,0) can
step onto it), yet the composite score of `evaluate_move` is -944, not the
sentinel -1000: the space sub-score raised it above the sentinel. -/
theorem fatal_candidate_composite_counterexample :
    evaluate_head_to_head ⟨1, 0⟩ 1 [⟨"o", ⟨2, 0⟩, [⟨2, 0⟩], 100⟩] 3 1 = -1000
    ∧ evaluate_move "right" ⟨1, 0⟩ ⟨0, 0⟩ [⟨0, 0⟩] 1 50
        [⟨"o", ⟨2, 0⟩, [⟨2, 0⟩], 100⟩] [] 3 1 = -944
    ∧ ¬ (evaluate_move "right" ⟨1, 0⟩ ⟨0, 0⟩ [⟨0, 0⟩] 1 50
        [⟨"o", ⟨2, 0⟩, [⟨2, 0⟩], 100⟩] [] 3 1 = -1000) := by
  have hehh : evaluate_head_to_head ⟨1, 0⟩ 1 [⟨"o", ⟨2, 0⟩, [⟨2, 0⟩], 100⟩] 3 1
      = -1000 :=
    ehh_go_eq_neg1000_of_fatal ⟨1, 0⟩ 1 3 1 [⟨"o", ⟨2, 0⟩, [⟨2, 0⟩], 100⟩] 0
      (by decide)
  have hbfs : bfs_run (space_occupied [⟨0, 0⟩] [⟨"o", ⟨2, 0⟩, [⟨2, 0⟩], 100⟩])
      3 1 3 7 1 0 = ([(0, 0), (2, 0), (1, 0)], 3, 0) := by decide
  have hsadv : evaluate_space_advanced ⟨1, 0⟩ [⟨0, 0⟩]
      [⟨"o", ⟨2, 0⟩, [⟨2, 0⟩], 100⟩] 3 1 = 28 := by
    norm_num [evaluate_space_advanced, hbfs, space_occupied]
  have hmode : scorer_strategy 50 1 [⟨"o", ⟨2, 0⟩, [⟨2, 0⟩], 100⟩] = .survival := by
    decide
  have hcob : check_opponent_bodies ⟨1, 0⟩ [⟨"o", ⟨2, 0⟩, [⟨2, 0⟩], 100⟩] [] = false := by
    decide
  have hmove : evaluate_move "right" ⟨1, 0⟩ ⟨0, 0⟩ [⟨0, 0⟩] 1 50
      [⟨"o", ⟨2, 0⟩, [⟨2, 0⟩], 100⟩] [] 3 1 = -944 := by
    norm_num [evaluate_move, hcob, hmode, hsadv, hehh, evaluate_food_seeking,
      is_straight_line]
  refine ⟨hehh, hmove, ?_⟩
  rw [hmove]
  norm_num

/-- The board part of the move request. -/
structure Board where
  width : Int
  height : Int
  food : List Point
  snakes : List Snake
deriving DecidableEq, Repr

/-- The opponent list of `move` in `src/main.py`: every snake whose id
differs from self (stable-id comparison). -/
def board_opponents (board : Board) (you : Snake) : List Snake :=
  board.snakes.filter (fun s => decide (¬ s.id = you.id))

/-- The `move_scores` map built by `move` in `src/main.py`: candidates in
the fixed order up, down, left, right that pass `is_basic_safe`,
`check_opponent_bodies` and `validate_move_against_opponents`, paired with
their `evaluate_move` score (Python dicts preserve insertion order). -/
def scored_moves (board : Board) (you : Snake) : List (String × Rat) :=
  let opponents := board_opponents board you
  (["up", "down", "left", "right"]).filterMap (fun mv =>
    let nh := get_new_head_position you.head mv
    if ¬ is_basic_safe nh board.width board.height you.body board.food = true then
      none
    else if check_opponent_bodies nh opponents board.food = true then none
    else if ¬ validate_move_against_opponents nh you.body.length opponents
        board.width board.height = true then none
    else
      some (mv, evaluate_move mv nh you.head you.body you.body.length you.health
        opponents board.food board.width board.height))

/-- `max(move_scores, key=move_scores.get)` in `src/main.py`: the first
entry with the maximal score (Python `max` keeps the first maximiser). -/
def best_choice : List (String × Rat) → String × Rat
  | [] => ("down", 0)
  | m0 :: rest => rest.foldl (fun best p => if best.2 < p.2 then p else best) m0

/-- The decision entrypoint `move` from `src/main.py` (the decision logic of
the request handler): score the candidates, default to "down" when none
survive, otherwise take the top-scoring move, re-validate it against
opponent threats, and on failure scan the remaining scored moves in
descending score order for a safe alternative, keeping the original choice
when none passes. -/
def chooseMove (board : Board) (you : Snake) : String :=
  let opponents := board_opponents board you
  match scored_moves board you with
  | [] => "down"
  | m0 :: rest =>
    let chosen := best_choice (m0 :: rest)
    let chosen_head := get_new_head_position you.head chosen.1
    if validate_move_against_opponents chosen_head you.body.length opponents
        board.width board.height = true then chosen.1
    else
      let sorted_moves := (m0 :: rest).mergeSort (fun a b => decide (b.2 ≤ a.2))
      let safe_alternatives := sorted_moves.filter (fun p =>
        decide (¬ p.1 = chosen.1) &&
          validate_move_against_opponents (get_new_head_position you.head p.1)
            you.body.length opponents board.width board.height)
      match safe_alternatives with
      | [] => chosen.1
      | a :: _ => a.1

/-- c4: when every candidate move is rejected by the safety filter or the
opponent-body/threat checks (the scored-move map is empty), the decision
entrypoint returns the fixed default move "down"; being a total function,
it raises nothing. -/
theorem no_safe_move_default_down (board : Board) (you : Snake)
    (hempty : scored_moves board you = []) :
    chooseMove board you = "down" := by
  unfold chooseMove
  rw [hempty]

/-- c4 witness: on a 1-by-1 board every move is rejected and the entrypoint
returns "down". -/
theorem no_safe_move_default_down_witness :
    scored_moves ⟨1, 1, [], [⟨"me", ⟨0, 0⟩, [⟨0, 0⟩], 100⟩]⟩
        ⟨"me", ⟨0, 0⟩, [⟨0, 0⟩], 100⟩ = []
    ∧ chooseMove ⟨1, 1, [], [⟨"me", ⟨0, 0⟩, [⟨0, 0⟩], 100⟩]⟩
        ⟨"me", ⟨0, 0⟩, [⟨0, 0⟩], 100⟩ = "down" :=
  ⟨by decide,
    no_safe_move_default_down _ _ (by decide)⟩

lemma best_choice_foldl_mem (l : List (String × Rat)) :
    ∀ acc : String × Rat,
      l.foldl (fun best p => if best.2 < p.2 then p else best) acc = acc ∨
        l.foldl (fun best p => if best.2 < p.2 then p else best) acc ∈ l := by
  induction l with
  | nil => intro acc; left; rfl
  | cons x xs ih =>
    intro acc
    rw [List.foldl_cons]
    rcases ih (if acc.2 < x.2 then x else acc) with heq | hmem
    · rw [heq]
      by_cases hlt : acc.2 < x.2
      · right; rw [if_pos hlt]; exact List.mem_cons_self _ _
      · left; rw [if_neg hlt]
    · right; exact List.mem_cons_of_mem _ hmem

lemma best_choice_mem (l : List (String × Rat)) (hne : l ≠ []) :
    best_choice l ∈ l := by
  obtain ⟨m0, rest, rfl⟩ := List.exists_cons_of_ne_nil hne
  show (rest.foldl (fun best p => if best.2 < p.2 then p else best) m0) ∈ m0 :: rest
  rcases best_choice_foldl_mem rest m0 with heq | hmem
  · rw [heq]; exact List.mem_cons_self _ _
  · exact List.mem_cons_of_mem _ hmem

lemma scored_moves_validated (board : Board) (you : Snake) :
    ∀ p ∈ scored_moves board you,
      validate_move_against_opponents (get_new_head_position you.head p.1)
        you.body.length (board_opponents board you) board.width board.height
        = true := by
  intro p hp
  unfold scored_moves at hp
  rw [List.mem_filterMap] at hp
  obtain ⟨mv, _, heq⟩ := hp
  by_cases h1 : ¬ is_basic_safe (get_new_head_position you.head mv) board.width
      board.height you.body board.food = true
  · rw [if_pos h1] at heq; exact absurd heq (by simp)
  · rw [if_neg h1] at heq
    by_cases h2 : check_opponent_bodies (get_new_head_position you.head mv)
        (board_opponents board you) board.food = true
    · rw [if_pos h2] at heq; exact absurd heq (by simp)
    · rw [if_neg h2] at heq
      by_cases h3 : ¬ validate_move_against_opponents
          (get_new_head_position you.head mv) you.body.length
          (board_opponents board you) board.width board.height = true
      · rw [if_pos h3] at heq; exact absurd heq (by simp)
      · rw [if_neg h3] at heq
        rw [Option.some_inj] at heq
        push_neg at h3
        have hfst : p.1 = mv := by rw [← heq]
        rw [hfst]
        exact h3

/-- c10: whenever at least one candidate survives the initial filtering,
the final re-validation of the top-scoring move succeeds (every scored
candidate already passed the identical check on the same immutable
inputs), so the alternative-scanning fallback is unreachable and the
returned move is exactly the maximum-scoring candidate. -/
theorem final_revalidation_redundant (board : Board) (you : Snake)
    (hne : scored_moves board you ≠ []) :
    validate_move_against_opponents
      (get_new_head_position you.head (best_choice (scored_moves board you)).1)
      you.body.length (board_opponents board you) board.width board.height = true
    ∧ chooseMove board you = (best_choice (scored_moves board you)).1 := by
  have hval := scored_moves_validated board you (best_choice (scored_moves board you))
    (best_choice_mem _ hne)
  refine ⟨hval, ?_⟩
  obtain ⟨m0, rest, hcons⟩ := List.exists_cons_of_ne_nil hne
  unfold chooseMove
  rw [hcons]
  rw [hcons] at hval
  simp only [hval, if_true]

/-- c10 witness: a 2-by-1 solo snapshot in which exactly one candidate
survives filtering; the theorem applied there. -/
theorem final_revalidation_redundant_witness :
    chooseMove ⟨2, 1, [], [⟨"me", ⟨0, 0⟩, [⟨0, 0⟩], 100⟩]⟩
        ⟨"me", ⟨0, 0⟩, [⟨0, 0⟩], 100⟩ =
      (best_choice (scored_moves ⟨2, 1, [], [⟨"me", ⟨0, 0⟩, [⟨0, 0⟩], 100⟩]⟩
        ⟨"me", ⟨0, 0⟩, [⟨0, 0⟩], 100⟩)).1 :=
  (final_revalidation_redundant _ _ (by decide)).2
